import Mathlib

/-!
Verification of the mwfaas master-worker FaaS orchestrator against its
specification.  The Python sources are shallowly embedded: Python lists
become `List`, Python `int` becomes `Int` (or `Nat` where the source
guarantees non-negativity), raising an exception becomes `Except.error`,
and an exception object stored as a *value* (the codebase returns
exception instances from workers instead of raising them) is the
`Except.error` constructor of an inner `Except` that is itself an
ordinary value.  Exception *classes* are modelled by the constructors of
`Exc`; message strings are abstracted away because the source builds
them with f-string interpolation.
-/

set_option maxHeartbeats 1000000

/-- Decidable equality of `Except` values, used to evaluate the
embedding on concrete inputs. -/
instance instDecEqExcept {ε α : Type} [DecidableEq ε] [DecidableEq α] :
    DecidableEq (Except ε α) := fun a b =>
  match a, b with
  | .ok x, .ok y =>
    if h : x = y then .isTrue (by rw [h])
    else .isFalse (fun hc => h (Except.ok.inj hc))
  | .error x, .error y =>
    if h : x = y then .isTrue (by rw [h])
    else .isFalse (fun hc => h (Except.error.inj hc))
  | .ok _, .error _ => .isFalse (fun hc => Except.noConfusion hc)
  | .error _, .ok _ => .isFalse (fun hc => Except.noConfusion hc)

/-- Exception classes appearing in the sources, plus the two error kinds
named by the specification (`UserContractViolation`, `NoWorkersAvailable`)
which no code path of the repository constructs. -/
inductive Exc : Type
  | typeError
  | valueError
  | runtimeError
  | attributeError
  | keyError
  | timeoutError
  | indexError
  | userContractViolation
  | noWorkersAvailable
  | other
  deriving DecidableEq, Repr

/-!
## Partitioner: `DefaultDistributionStrategy.split_data`
(src/distribution.py lines 35-80) and the byte-identical
`ListDistributionStrategy.split_data`
(src/list_distribuition_strategy.py lines 11-56).

The Python loop
`for i in range(K): chunk = data[pos : pos + size]; pos += size`
is rendered as structural recursion on the number of remaining splits,
carrying the running split index `i` and the slice start `pos`.
-/

/-- Size of split `i`: `base_size + (1 if i < remainder else 0)`. -/
def chunkSize (base rem i : Nat) : Nat :=
  base + (if i < rem then 1 else 0)

/-- The chunk-building loop of `split_data`: `k` splits remain, the next
split has index `i`, and slicing starts at `pos`.  `data[pos : pos+sz]`
is `(data.drop pos).take sz`. -/
def evenChunks (data : List α) (base rem : Nat) : Nat → Nat → Nat → List (List α)
  | 0, _, _ => []
  | Nat.succ k, i, pos =>
    (data.drop pos).take (chunkSize base rem i) ::
      evenChunks data base rem k (i + 1) (pos + chunkSize base rem i)

/-- `DefaultDistributionStrategy.split_data` (src/distribution.py).
Raises `ValueError` for a non-positive split count, returns `[]` for an
empty input, otherwise builds the chunk list with `base = n // K` and
`rem = n % K`. -/
def DefaultDistributionStrategy.split_data (data_input : List α)
    (num_target_splits : Int) : Except Exc (List (List α)) :=
  if num_target_splits ≤ 0 then .error .valueError
  else if data_input.isEmpty then .ok []
  else
    let n := data_input.length
    let K := num_target_splits.toNat
    .ok (evenChunks data_input (n / K) (n % K) K 0 0)

/-- `ListDistributionStrategy.split_data`
(src/list_distribuition_strategy.py); its body is identical to the
default strategy's. -/
def ListDistributionStrategy.split_data (data_input : List α)
    (num_target_splits : Int) : Except Exc (List (List α)) :=
  if num_target_splits ≤ 0 then .error .valueError
  else if data_input.isEmpty then .ok []
  else
    let n := data_input.length
    let K := num_target_splits.toNat
    .ok (evenChunks data_input (n / K) (n % K) K 0 0)

/-- Total number of items covered by splits `i, i+1, …, i+k-1`. -/
def sumSizes (base rem : Nat) : Nat → Nat → Nat
  | 0, _ => 0
  | Nat.succ k, i => chunkSize base rem i + sumSizes base rem k (i + 1)

theorem sumSizes_eq (base rem : Nat) :
    ∀ k i, sumSizes base rem k i = k * base + (min (i + k) rem - min i rem) := by
  intro k
  induction k with
  | zero => intro i; simp [sumSizes]
  | succ k ih =>
    intro i
    have h := ih (i + 1)
    by_cases hc : i < rem <;>
      simp only [sumSizes, chunkSize, hc, if_true, if_false, h, Nat.succ_mul] <;>
      omega

theorem evenChunks_length (data : List α) (base rem : Nat) :
    ∀ k i pos, (evenChunks data base rem k i pos).length = k := by
  intro k
  induction k with
  | zero => intro i pos; rfl
  | succ k ih => intro i pos; simp [evenChunks, ih]

theorem evenChunks_flatten (data : List α) (base rem : Nat) :
    ∀ k i pos, pos + sumSizes base rem k i = data.length →
      (evenChunks data base rem k i pos).flatten = data.drop pos := by
  intro k
  induction k with
  | zero =>
    intro i pos h
    simp only [sumSizes] at h
    have hge : data.length ≤ pos := by omega
    simp [evenChunks, List.drop_eq_nil_of_le hge]
  | succ k ih =>
    intro i pos h
    simp only [sumSizes] at h
    have hrest : (pos + chunkSize base rem i) + sumSizes base rem k (i + 1) =
        data.length := by omega
    have hjoin := ih (i + 1) (pos + chunkSize base rem i) hrest
    simp only [evenChunks, List.flatten_cons, hjoin]
    have hdd : data.drop (pos + chunkSize base rem i) =
        (data.drop pos).drop (chunkSize base rem i) := by
      rw [List.drop_drop, Nat.add_comm]
    rw [hdd, List.take_append_drop]

theorem evenChunks_get_length (data : List α) (base rem : Nat) :
    ∀ k i pos, pos + sumSizes base rem k i = data.length →
      ∀ j (h : j < (evenChunks data base rem k i pos).length),
        ((evenChunks data base rem k i pos).get ⟨j, h⟩).length =
          chunkSize base rem (i + j) := by
  intro k
  induction k with
  | zero =>
    intro i pos _ j h
    simp [evenChunks_length] at h
  | succ k ih =>
    intro i pos hlen j h
    simp only [sumSizes] at hlen
    match j with
    | 0 =>
      simp only [evenChunks, List.get]
      rw [List.length_take]
      have hd : (data.drop pos).length = data.length - pos := by
        simp [List.length_drop]
      rw [hd]
      simp only [Nat.add_zero]
      omega
    | Nat.succ j =>
      have hrest : (pos + chunkSize base rem i) + sumSizes base rem k (i + 1) =
          data.length := by omega
      have h' : j < (evenChunks data base rem k (i + 1)
          (pos + chunkSize base rem i)).length := by
        simp only [evenChunks_length]
        simp only [evenChunks, List.length_cons, evenChunks_length] at h
        omega
      have hg := ih (i + 1) (pos + chunkSize base rem i) hrest j h'
      simp only [evenChunks, List.get]
      rw [hg]
      congr 1
      omega

theorem sumSizes_total (n K : Nat) (hK : 0 < K) :
    sumSizes (n / K) (n % K) K 0 = n := by
  rw [sumSizes_eq]
  have hrem : n % K < K := Nat.mod_lt _ hK
  have hdm : K * (n / K) + n % K = n := Nat.div_add_mod n K
  have h1 : min (0 + K) (n % K) = n % K := by omega
  have h2 : min 0 (n % K) = 0 := by omega
  rw [h1, h2]
  omega

/-- Claim C2: for a non-empty list `xs` and integer `K ≥ 1`, the
even-split strategy returns exactly `K` contiguous chunks whose
concatenation is `xs`, the first `n % K` chunks holding `n / K + 1`
items and the rest `n / K`; when `K > n` the first `n` chunks are
singletons and the rest empty; the empty list yields zero chunks; and
`ListDistributionStrategy.split_data` coincides with the default
strategy. -/
theorem split_data_C2 {α : Type} (xs : List α) (K : Int)
    (hK : 1 ≤ K) (hxs : xs ≠ []) :
    ∃ cs, DefaultDistributionStrategy.split_data xs K = .ok cs ∧
      cs.length = K.toNat ∧
      cs.flatten = xs ∧
      (∀ i (h : i < cs.length),
        (cs.get ⟨i, h⟩).length =
          if i < xs.length % K.toNat then xs.length / K.toNat + 1
          else xs.length / K.toNat) ∧
      (xs.length < K.toNat → ∀ i (h : i < cs.length),
        (cs.get ⟨i, h⟩).length = if i < xs.length then 1 else 0) ∧
      DefaultDistributionStrategy.split_data ([] : List α) K = .ok [] ∧
      ListDistributionStrategy.split_data xs K =
        DefaultDistributionStrategy.split_data xs K := by
  have hKpos : 0 < K.toNat := by omega
  have hKle : ¬ (K ≤ 0) := by omega
  have hne : xs.isEmpty = false := by
    cases xs with
    | nil => exact absurd rfl hxs
    | cons a l => rfl
  have htotal0 : 0 + sumSizes (xs.length / K.toNat) (xs.length % K.toNat)
      K.toNat 0 = xs.length := by
    simpa using sumSizes_total xs.length K.toNat hKpos
  refine ⟨evenChunks xs (xs.length / K.toNat) (xs.length % K.toNat) K.toNat 0 0,
    ?_, ?_, ?_, ?_, ?_, ?_, ?_⟩
  · simp [DefaultDistributionStrategy.split_data, hKle, hne]
  · exact evenChunks_length xs _ _ K.toNat 0 0
  · simpa using evenChunks_flatten xs _ _ K.toNat 0 0 htotal0
  · intro i h
    have hg := evenChunks_get_length xs _ _ K.toNat 0 0 htotal0 i h
    rw [hg]
    by_cases hc : i < xs.length % K.toNat <;> simp [chunkSize, hc]
  · intro hbig i h
    have hg := evenChunks_get_length xs _ _ K.toNat 0 0 htotal0 i h
    rw [hg]
    have hb0 : xs.length / K.toNat = 0 := Nat.div_eq_of_lt hbig
    have hr : xs.length % K.toNat = xs.length := Nat.mod_eq_of_lt hbig
    by_cases hc : i < xs.length <;> simp [chunkSize, hb0, hr, hc]
  · simp [DefaultDistributionStrategy.split_data, hKle]
  · rfl

/-- Witness for C2 at `xs = [10, 20, 30, 40, 50]`, `K = 3`: three chunks
`[[10, 20], [30, 40], [50]]`. -/
theorem split_data_C2_witness :
    ∃ cs, DefaultDistributionStrategy.split_data [10, 20, 30, 40, 50] (3 : Int)
        = .ok cs ∧
      cs.length = (3 : Int).toNat ∧
      cs.flatten = [10, 20, 30, 40, 50] ∧
      (∀ i (h : i < cs.length),
        (cs.get ⟨i, h⟩).length =
          if i < ([10, 20, 30, 40, 50] : List Nat).length % (3 : Int).toNat
          then ([10, 20, 30, 40, 50] : List Nat).length / (3 : Int).toNat + 1
          else ([10, 20, 30, 40, 50] : List Nat).length / (3 : Int).toNat) ∧
      (([10, 20, 30, 40, 50] : List Nat).length < (3 : Int).toNat →
        ∀ i (h : i < cs.length),
        (cs.get ⟨i, h⟩).length =
          if i < ([10, 20, 30, 40, 50] : List Nat).length then 1 else 0) ∧
      DefaultDistributionStrategy.split_data ([] : List Nat) (3 : Int) = .ok [] ∧
      ListDistributionStrategy.split_data [10, 20, 30, 40, 50] (3 : Int) =
        DefaultDistributionStrategy.split_data [10, 20, 30, 40, 50] (3 : Int) :=
  split_data_C2 [10, 20, 30, 40, 50] 3 (by decide) (by decide)

/-!
## FunctionCodec and worker execution
(src/master.py lines 45-50, src/slave.py lines 25-49,
src/cloud_manager.py lines 17-44).

A Python callable is embedded as a Lean function `List α → Except Exc β`
where `.error e` models the call raising exception `e`.  The
cloudpickle `dumps`/`loads` round trip is modelled as the identity on
functions; `Master._serialize_function` applies no wrapper of any kind
around the user function before serializing it.
-/

/-- `Master._serialize_function` (src/master.py lines 45-50): simply
`cloudpickle.dumps(user_function)` — the function is serialized as-is,
with no adapter wrapped around it. -/
def Master._serialize_function (user_function : List α → Except Exc β) :
    List α → Except Exc β :=
  user_function

/-- `Slave.execute_task` (src/slave.py lines 25-49):
`return user_function(data_chunk)` inside a `try` whose handler is a
bare `raise`, so every exception propagates unchanged. -/
def Slave.execute_task (user_function : List α → Except Exc β)
    (data_chunk : List α) : Except Exc β :=
  user_function data_chunk

/-- `_execute_task_in_worker_process` (src/cloud_manager.py lines
17-44): runs the task through a fresh `Slave` and *returns* any raised
exception instance as the function's value (the outer `Except` layer,
which would model this helper itself raising, is absent because the
handler catches everything). -/
def _execute_task_in_worker_process
    (serialized_user_function : List α → Except Exc β)
    (data_chunk : List α) : Except Exc β :=
  match Slave.execute_task serialized_user_function data_chunk with
  | .ok result => .ok result
  | .error e => .error e

/-- A user function whose invocation fails with a type/arity mismatch
(`TypeError`), as happens when it expects a single item instead of a
chunk. -/
def singleItemStyleFn : List Int → Except Exc Int :=
  fun _ => .error .typeError

/-- Counterexample to claim C8: a `TypeError` raised by the user
function inside the worker is *not* rewritten into a
`UserContractViolation` — it comes back unchanged, because
`Master._serialize_function` wraps the function in no adapter. -/
theorem worker_C8_counterexample :
    _execute_task_in_worker_process
        (Master._serialize_function singleItemStyleFn) [1, 2] =
      .error .typeError ∧
    _execute_task_in_worker_process
        (Master._serialize_function singleItemStyleFn) [1, 2] ≠
      .error .userContractViolation := by
  constructor <;> decide

/-- Claim C8 (amended): the codec serializes the user function with no
wrapping adapter, so *every* error of the user function — including a
type/arity mismatch — propagates unchanged to the task outcome, and no
rewriting into `UserContractViolation` ever happens. -/
theorem worker_C8_amended {α β : Type} (f : List α → Except Exc β)
    (chunk : List α) :
    _execute_task_in_worker_process (Master._serialize_function f) chunk =
      f chunk ∧
    Slave.execute_task f chunk = f chunk := by
  refine ⟨?_, rfl⟩
  cases h : f chunk <;>
    simp [_execute_task_in_worker_process, Slave.execute_task,
      Master._serialize_function, h]

/-!
## `LocalCloudManager.get_all_results_for_ids`
(src/cloud_manager.py lines 179-242).

The manager's relevant state is whether the pool is initialized and the
`_active_tasks` map from task id to its `AsyncResult`.  An
`AsyncResult.get(timeout)` either returns the worker's value (which may
itself be an exception object), raises `multiprocessing.TimeoutError`,
or raises some other exception.
-/

/-- Behaviour of one `AsyncResult.get` call. -/
inductive AsyncOutcome (β : Type) : Type
  | returns (v : Except Exc β)
  | raisesTimeout
  | raises (e : Exc)

/-- State of a `LocalCloudManager` as far as result collection is
concerned. -/
structure LocalCMState (β : Type) : Type where
  poolInitialized : Bool
  activeTasks : List (String × AsyncOutcome β)

/-- `self._active_tasks.get(task_id)`. -/
def lookupTask (tasks : List (String × AsyncOutcome β)) (task_id : String) :
    Option (AsyncOutcome β) :=
  (tasks.find? (fun p => p.1 == task_id)).map Prod.snd

/-- Body of the per-id collection loop: unknown id yields a `KeyError`
object, a timeout yields a `multiprocessing.TimeoutError` object, any
other exception from `.get` is appended as a value, and otherwise the
worker's outcome is appended. -/
def localTaskResult (st : LocalCMState β) (task_id : String) : Except Exc β :=
  match lookupTask st.activeTasks task_id with
  | none => .error .keyError
  | some (.returns v) => v
  | some .raisesTimeout => .error .timeoutError
  | some (.raises e) => .error e

/-- `LocalCloudManager.get_all_results_for_ids`
(src/cloud_manager.py lines 179-242). -/
def LocalCloudManager.get_all_results_for_ids (st : LocalCMState β)
    (task_ids : List String) : Except Exc (List (Except Exc β)) :=
  if (st.poolInitialized = false) ∧ (st.activeTasks.isEmpty = false) then
    .error .runtimeError
  else if (st.activeTasks.isEmpty = true) ∧ (task_ids.isEmpty = false) then
    .ok (task_ids.map (fun _ => .error .keyError))
  else
    .ok (task_ids.map (localTaskResult st))

/-- Claim C10: on an initialized manager, `get_all_results_for_ids`
returns (never raises) a list of exactly the input's length whose entry
`k` is determined by `task_ids[k]`, and an id with no active task yields
a `KeyError` object at its position. -/
theorem local_get_all_results_C10 {β : Type} (st : LocalCMState β)
    (task_ids : List String) (hp : st.poolInitialized = true) :
    ∃ outs, LocalCloudManager.get_all_results_for_ids st task_ids = .ok outs ∧
      outs.length = task_ids.length ∧
      (∀ k (hk : k < task_ids.length),
        outs[k]? = some (localTaskResult st (task_ids.get ⟨k, hk⟩))) ∧
      (∀ k (hk : k < task_ids.length),
        lookupTask st.activeTasks (task_ids.get ⟨k, hk⟩) = none →
          outs[k]? = some (.error .keyError)) := by
  have h1 : ¬ ((st.poolInitialized = false) ∧ (st.activeTasks.isEmpty = false)) := by
    simp [hp]
  by_cases h2 : (st.activeTasks.isEmpty = true) ∧ (task_ids.isEmpty = false)
  · have hnil : st.activeTasks = [] := List.isEmpty_iff.mp h2.1
    refine ⟨task_ids.map (fun _ => .error .keyError), ?_, by simp, ?_, ?_⟩
    · unfold LocalCloudManager.get_all_results_for_ids
      rw [if_neg h1, if_pos h2]
    · intro k hk
      have hres : localTaskResult st (task_ids.get ⟨k, hk⟩) = .error .keyError := by
        simp [localTaskResult, lookupTask, hnil]
      rw [hres, List.getElem?_map, List.getElem?_eq_getElem hk]
      rfl
    · intro k hk _
      rw [List.getElem?_map, List.getElem?_eq_getElem hk]
      rfl
  · refine ⟨task_ids.map (localTaskResult st), ?_, by simp, ?_, ?_⟩
    · unfold LocalCloudManager.get_all_results_for_ids
      rw [if_neg h1, if_neg h2]
    · intro k hk
      rw [List.getElem?_map, List.getElem?_eq_getElem hk]
      simp [List.get_eq_getElem]
    · intro k hk hlk
      rw [List.get_eq_getElem] at hlk
      have hres : localTaskResult st (task_ids.get ⟨k, hk⟩) = .error .keyError := by
        rw [List.get_eq_getElem]
        simp only [localTaskResult]
        rw [hlk]
      rw [List.getElem?_map, List.getElem?_eq_getElem hk]
      rw [List.get_eq_getElem] at hres
      exact congrArg some hres

/-- Witness for C10: a manager with two active tasks, queried with an
unknown id in the middle. -/
theorem local_get_all_results_C10_witness :
    ∃ outs,
      LocalCloudManager.get_all_results_for_ids
        (⟨true, [("a", .returns (.ok (5 : Int))), ("b", .raisesTimeout)]⟩ :
          LocalCMState Int) ["b", "zz", "a"] = .ok outs ∧
      outs.length = (["b", "zz", "a"] : List String).length ∧
      (∀ k (hk : k < (["b", "zz", "a"] : List String).length),
        outs[k]? = some (localTaskResult
          (⟨true, [("a", .returns (.ok (5 : Int))), ("b", .raisesTimeout)]⟩ :
            LocalCMState Int)
          ((["b", "zz", "a"] : List String).get ⟨k, hk⟩))) ∧
      (∀ k (hk : k < (["b", "zz", "a"] : List String).length),
        lookupTask
            (⟨true, [("a", .returns (.ok (5 : Int))), ("b", .raisesTimeout)]⟩ :
              LocalCMState Int).activeTasks
            ((["b", "zz", "a"] : List String).get ⟨k, hk⟩) = none →
          outs[k]? = some (.error .keyError)) :=
  local_get_all_results_C10 _ _ rfl

/-!
## `Master.reduce` (src/master.py lines 264-304)
-/

/-- The successful-entry filter of `Master.reduce`:
`[r for r in results_list if not isinstance(r, Exception)]`. -/
def successfulResults (results_list : List (Except Exc β)) : List β :=
  results_list.filterMap (fun r =>
    match r with
    | .ok v => some v
    | .error _ => none)

/-- `Master.reduce` (src/master.py lines 264-304): returns `None` when
no successful results remain, otherwise returns
`reduce_function(successful_results)`, re-raising any exception the
aggregator raises. -/
def Master.reduce (results_list : List (Except Exc β))
    (reduce_function : List β → Except Exc γ) : Except Exc (Option γ) :=
  let successful := successfulResults results_list
  if successful.isEmpty then .ok none
  else
    match reduce_function successful with
    | .ok final_result => .ok (some final_result)
    | .error e => .error e

/-- Number of times `Master.reduce` invokes the aggregator: its single
call site runs exactly when `successful_results` is non-empty. -/
def Master.reduceAggregatorCalls (results_list : List (Except Exc β)) : Nat :=
  if (successfulResults results_list).isEmpty then 0 else 1

/-- Claim C4: `Master.reduce` filters out error entries; with no
successful entry it returns `None` without invoking the aggregator;
otherwise it invokes the aggregator exactly once on the in-order list of
successful entries, returning its value and propagating its exception
unchanged. -/
theorem master_reduce_C4 {β γ : Type} (results : List (Except Exc β))
    (f : List β → Except Exc γ) :
    (successfulResults results = [] →
      Master.reduce results f = .ok none ∧
      Master.reduceAggregatorCalls results = 0) ∧
    (successfulResults results ≠ [] →
      Master.reduceAggregatorCalls results = 1 ∧
      (∀ v, f (successfulResults results) = .ok v →
        Master.reduce results f = .ok (some v)) ∧
      (∀ e, f (successfulResults results) = .error e →
        Master.reduce results f = .error e)) := by
  constructor
  · intro h
    constructor <;> simp [Master.reduce, Master.reduceAggregatorCalls, h]
  · intro h
    have hne : (successfulResults results).isEmpty = false := by
      cases hs : successfulResults results with
      | nil => exact absurd hs h
      | cons a l => rfl
    refine ⟨?_, ?_, ?_⟩
    · simp [Master.reduceAggregatorCalls, hne]
    · intro v hv
      simp [Master.reduce, hne, hv]
    · intro e he
      simp [Master.reduce, hne, he]

/-- Witness for C4: one error entry filtered out, the summing aggregator
applied exactly once to `[2, 3]`. -/
theorem master_reduce_C4_witness :
    Master.reduce [.error .typeError, .ok (2 : Int), .ok 3]
        (fun l => .ok (l.foldl (· + ·) 0)) = .ok (some 5) ∧
    Master.reduceAggregatorCalls
        ([.error .typeError, .ok (2 : Int), .ok 3] : List (Except Exc Int)) = 1 := by
  have h := (master_reduce_C4 [.error .typeError, .ok (2 : Int), .ok 3]
    (fun l => .ok (l.foldl (· + ·) 0))).2 (by decide)
  exact ⟨h.2.1 5 (by decide), h.1⟩

/-!
## `Master.run` (src/master.py lines 52-262)

`run` interacts with its cloud manager through four observation points:
the attribute lookup + call of `get_worker_count()`, one `submit_task`
call per chunk (in chunk order), and a single batched
`get_results_for_ids` call.  A `RunEnv` packages those observations:
`getWorkerCount = none` models the *absence* of the attribute
(`AttributeError` on lookup), `submitTask i` is the outcome of the
`i`-th `submit_task` call, and task ids (uuid4 strings in the source)
are modelled as opaque `Nat`s.  The metadata bookkeeping
(`_task_metadata`) is omitted: it never influences the returned list.
-/

/-- Environment of one `Master.run` call. -/
structure RunEnv (α β : Type) : Type where
  callable : Bool
  serialize : Except Exc Unit
  getWorkerCount : Option (Except Exc Int)
  split : List α → Int → Except Exc (List (List α))
  submitTask : Nat → Except Exc Nat
  getResultsForIds : List Nat → Except Exc (List (Except Exc β))

/-- The worker-count step (src/master.py lines 74-88): a missing
`get_worker_count` attribute raises `AttributeError`; an
`AttributeError` raised *inside* the call is caught by the same handler;
any other exception — including the `ValueError` raised for a
non-positive count — is re-raised as `RuntimeError` by the generic
`except Exception` handler. -/
def workerCountStep (env : RunEnv α β) : Except Exc Int :=
  match env.getWorkerCount with
  | none => .error .attributeError
  | some (.error e) =>
    match e with
    | .attributeError => .error .attributeError
    | _ => .error .runtimeError
  | some (.ok num_target_splits) =>
    if num_target_splits ≤ 0 then .error .runtimeError
    else .ok num_target_splits

/-- The partition step (src/master.py lines 90-101): a `ValueError`
from the strategy is re-raised as `ValueError`, anything else as
`RuntimeError`. -/
def splitStep (env : RunEnv α β) (data_input : List α)
    (num_target_splits : Int) : Except Exc (List (List α)) :=
  match env.split data_input num_target_splits with
  | .ok data_chunks => .ok data_chunks
  | .error e =>
    match e with
    | .valueError => .error .valueError
    | _ => .error .runtimeError

/-- Slot contents after the submission loop (src/master.py lines
112-134): a failed submission stores the exception in
`collected_results_ordered[i]`, a successful one leaves the slot
`None`. -/
def submitSlots (β : Type) (submit : Nat → Except Exc Nat) (n : Nat) :
    List (Option (Except Exc β)) :=
  (List.range n).map (fun i =>
    match submit i with
    | .error e => some (.error e)
    | .ok _ => none)

/-- `tasks_for_result_collection`: the `(original_index, task_id)` pairs
of the successful submissions, in chunk order. -/
def submittedTasks (submit : Nat → Except Exc Nat) (n : Nat) :
    List (Nat × Nat) :=
  (List.range n).filterMap (fun i =>
    match submit i with
    | .ok task_id => some (i, task_id)
    | .error _ => none)

/-- Python dict insertion (last write wins, position of an existing key
is kept). -/
def dictInsert (d : List (Nat × Nat)) (key v : Nat) : List (Nat × Nat) :=
  if d.any (fun p => p.1 == key) then
    d.map (fun p => if p.1 == key then (key, v) else p)
  else d ++ [(key, v)]

/-- `processed_ids_indices = {t["id"]: t["original_index"] for t in
tasks_for_result_collection}`. -/
def dictOfTasks (tasks : List (Nat × Nat)) : List (Nat × Nat) :=
  tasks.foldl (fun d p => dictInsert d p.2 p.1) []

/-- Python `dict.pop(key)`: the value and the shrunk dict, or `none`
(modelling the `KeyError`) when the key is absent. -/
def dictPop (d : List (Nat × Nat)) (key : Nat) :
    Option (Nat × List (Nat × Nat)) :=
  match d.find? (fun p => p.1 == key) with
  | none => none
  | some p => some (p.2, d.filter (fun q => q.1 != key))

/-- The loop of the inconsistent-count branch (src/master.py lines
153-184): for each outcome index `k` it looks up `task_ids_to_fetch[k]`
(an out-of-range index raises `IndexError`), pops it from the dict (a
missing key raises `KeyError`), and writes the outcome at the popped
original index.  The result carries the partially updated slots plus
the exception, if one was raised. -/
def mismatchLoop (ids : List Nat) :
    List (Except Exc β) → Nat → List (Nat × Nat) →
    List (Option (Except Exc β)) →
    List (Nat × Nat) × List (Option (Except Exc β)) × Option Exc
  | [], _, d, s => (d, s, none)
  | outcome :: rest, k, d, s =>
    match ids[k]? with
    | none => (d, s, some .indexError)
    | some task_id =>
      match dictPop d task_id with
      | none => (d, s, some .keyError)
      | some (original_chunk_idx, d2) =>
        mismatchLoop ids rest (k + 1) d2
          (s.set original_chunk_idx (some outcome))

/-- The inconsistent-count branch (src/master.py lines 147-205): after
the loop, every chunk index remaining in the dict is marked failed with
the `RuntimeError("Contagem de resultados ... inconsistente.")`
object. -/
def mismatchBranch (ids : List Nat) (outcomes : List (Except Exc β))
    (tasks : List (Nat × Nat)) (s : List (Option (Except Exc β))) :
    List (Option (Except Exc β)) × Option Exc :=
  match mismatchLoop ids outcomes 0 (dictOfTasks tasks) s with
  | (d2, s2, none) =>
    (d2.foldl (fun acc p => acc.set p.2 (some (.error .runtimeError))) s2, none)
  | (_, s2, some e) => (s2, some e)

/-- The `except Exception as e_collect` handler (src/master.py lines
233-250): every submitted chunk whose slot is still `None` receives the
collection exception as its value. -/
def fillUncollected (tasks : List (Nat × Nat)) (e : Exc)
    (s : List (Option (Except Exc β))) : List (Option (Except Exc β)) :=
  tasks.foldl (fun acc p =>
    match acc[p.1]? with
    | some none => acc.set p.1 (some (.error e))
    | _ => acc) s

/-- The consistent-count branch (src/master.py lines 206-232): outcome
`idx` is written at `tasks_for_result_collection[idx]["original_index"]`. -/
def applyOutcomes (tasks : List (Nat × Nat)) (outcomes : List (Except Exc β))
    (s : List (Option (Except Exc β))) : List (Option (Except Exc β)) :=
  (tasks.zip outcomes).foldl (fun acc p => acc.set p.1.1 (some p.2)) s

/-- The result-collection phase (src/master.py lines 136-250): skipped
when there is nothing to fetch; the whole `try` body — the
`get_results_for_ids` call and both branches — is guarded by the
`e_collect` handler. -/
def collectPhase (getRes : List Nat → Except Exc (List (Except Exc β)))
    (tasks : List (Nat × Nat)) (collected : List (Option (Except Exc β))) :
    List (Option (Except Exc β)) :=
  let task_ids_to_fetch := tasks.map Prod.snd
  if task_ids_to_fetch.isEmpty then collected
  else
    match getRes task_ids_to_fetch with
    | .error e_collect => fillUncollected tasks e_collect collected
    | .ok task_outcomes =>
      if task_outcomes.length ≠ task_ids_to_fetch.length then
        match mismatchBranch task_ids_to_fetch task_outcomes tasks collected with
        | (slots2, none) => slots2
        | (slots2, some e_collect) => fillUncollected tasks e_collect slots2
      else applyOutcomes tasks task_outcomes collected

/-- The finalization loop (src/master.py lines 252-261): a slot still
`None` is filled with a `RuntimeError("Resultado inesperado 'None'...")`
object. -/
def finalizeSlots (s : List (Option (Except Exc β))) : List (Except Exc β) :=
  s.map (fun item =>
    match item with
    | none => .error .runtimeError
    | some outcome => outcome)

/-- `Master.run` (src/master.py lines 52-262). -/
def Master.run (env : RunEnv α β) (data_input : List α) :
    Except Exc (List (Except Exc β)) :=
  if env.callable = false then .error .typeError
  else
    match env.serialize with
    | .error e => .error e
    | .ok _ =>
      match workerCountStep env with
      | .error e => .error e
      | .ok num_target_splits =>
        match splitStep env data_input num_target_splits with
        | .error e => .error e
        | .ok data_chunks =>
          if data_chunks.isEmpty && data_input.isEmpty then .ok []
          else
            let n := data_chunks.length
            .ok (finalizeSlots (collectPhase env.getResultsForIds
              (submittedTasks env.submitTask n)
              (submitSlots β env.submitTask n)))

/-- Observable scheduling events of one `run`. -/
inductive RunEvent : Type
  | submit (chunk_index : Nat)
  | fetch (task_ids : List Nat)
  deriving DecidableEq, Repr

/-- Whether an event is a task submission. -/
def RunEvent.isSubmit : RunEvent → Bool
  | .submit _ => true
  | .fetch _ => false

/-- The sequence of manager interactions performed by `Master.run`: the
submission loop (src/master.py lines 112-134) calls `submit_task` once
per chunk, in chunk order, and only afterwards does the single
`get_results_for_ids` call (lines 141-145) happen — and only when at
least one submission produced a task id. -/
def Master.runEvents (env : RunEnv α β) (data_input : List α) :
    List RunEvent :=
  if env.callable = false then []
  else
    match env.serialize with
    | .error _ => []
    | .ok _ =>
      match workerCountStep env with
      | .error _ => []
      | .ok num_target_splits =>
        match splitStep env data_input num_target_splits with
        | .error _ => []
        | .ok data_chunks =>
          if data_chunks.isEmpty && data_input.isEmpty then []
          else
            let task_ids_to_fetch :=
              (submittedTasks env.submitTask data_chunks.length).map Prod.snd
            (List.range data_chunks.length).map RunEvent.submit ++
              (if task_ids_to_fetch.isEmpty then []
               else [RunEvent.fetch task_ids_to_fetch])

/-!
## Structural lemmas about the phases of `Master.run`
-/

theorem submitSlots_length (β : Type) (f : Nat → Except Exc Nat) (n : Nat) :
    (submitSlots β f n).length = n := by
  simp [submitSlots]

theorem submitSlots_getElem_err (β : Type) (f : Nat → Except Exc Nat)
    {n i : Nat} (hi : i < n) {e : Exc} (he : f i = .error e) :
    (submitSlots β f n)[i]? = some (some (.error e)) := by
  simp [submitSlots, List.getElem?_map, List.getElem?_range hi, he]

theorem submittedTasks_map_fst (f : Nat → Except Exc Nat) (n : Nat) :
    (submittedTasks f n).map Prod.fst =
      (List.range n).filter (fun i => (f i).isOk) := by
  unfold submittedTasks
  generalize List.range n = l
  induction l with
  | nil => rfl
  | cons a l ih =>
    cases hf : f a with
    | ok t =>
      simp [List.filterMap_cons, List.filter_cons, hf, Except.isOk,
        Except.toBool, ih]
    | error e =>
      simp [List.filterMap_cons, List.filter_cons, hf, Except.isOk,
        Except.toBool, ih]

theorem mem_fst_submittedTasks {f : Nat → Except Exc Nat} {n j : Nat}
    (h : j ∈ (submittedTasks f n).map Prod.fst) :
    j < n ∧ (f j).isOk = true := by
  rw [submittedTasks_map_fst] at h
  have := List.mem_filter.mp h
  exact ⟨List.mem_range.mp this.1, this.2⟩

theorem submittedTasks_fst_nodup (f : Nat → Except Exc Nat) (n : Nat) :
    ((submittedTasks f n).map Prod.fst).Nodup := by
  rw [submittedTasks_map_fst]
  exact (List.nodup_range n).filter _

/-- Task id of a successful submission (uuid in the source). -/
def okId (f : Nat → Except Exc Nat) (i : Nat) : Nat :=
  match f i with
  | .ok t => t
  | .error _ => 0

theorem submittedTasks_allOk {f : Nat → Except Exc Nat} {n : Nat}
    (h : ∀ i, i < n → (f i).isOk = true) :
    submittedTasks f n = (List.range n).map (fun i => (i, okId f i)) := by
  unfold submittedTasks
  have hmem : ∀ i ∈ List.range n, (f i).isOk = true := by
    intro i hi; exact h i (List.mem_range.mp hi)
  generalize hl : List.range n = l at hmem
  clear hl
  induction l with
  | nil => rfl
  | cons a l ih =>
    have ha := hmem a (List.mem_cons_self a l)
    cases hf : f a with
    | ok t =>
      have hok : okId f a = t := by simp [okId, hf]
      simp only [List.filterMap_cons, List.map_cons, hf, hok]
      rw [ih (fun i hi => hmem i (List.mem_cons_of_mem a hi))]
    | error e =>
      rw [hf] at ha
      simp [Except.isOk, Except.toBool] at ha

theorem applyOutcomes_length (tasks : List (Nat × Nat))
    (outs : List (Except Exc β)) (s : List (Option (Except Exc β))) :
    (applyOutcomes tasks outs s).length = s.length := by
  unfold applyOutcomes
  generalize tasks.zip outs = l
  induction l generalizing s with
  | nil => rfl
  | cons p l ih => simp only [List.foldl_cons]; rw [ih]; simp

theorem applyOutcomes_getElem_not_mem {j : Nat} :
    ∀ (tasks : List (Nat × Nat)) (outs : List (Except Exc β))
      (s : List (Option (Except Exc β))),
      j ∉ tasks.map Prod.fst → (applyOutcomes tasks outs s)[j]? = s[j]? := by
  intro tasks
  induction tasks with
  | nil => intro outs s _; simp [applyOutcomes]
  | cons p ts ih =>
    intro outs s hj
    cases outs with
    | nil => simp [applyOutcomes]
    | cons o os =>
      have hne : j ≠ p.1 := by
        intro hc; exact hj (by simp [hc])
      have hj' : j ∉ ts.map Prod.fst := by
        intro hc; exact hj (by simp [hc])
      show (applyOutcomes ts os (s.set p.1 (some o)))[j]? = s[j]?
      rw [ih os (s.set p.1 (some o)) hj']
      exact List.getElem?_set_ne (fun hc => hne hc.symm)

theorem applyOutcomes_getElem_at :
    ∀ (tasks : List (Nat × Nat)) (outs : List (Except Exc β))
      (s : List (Option (Except Exc β))) (k : Nat)
      (h1 : k < tasks.length) (h2 : k < outs.length),
      (tasks.map Prod.fst).Nodup → (tasks.get ⟨k, h1⟩).1 < s.length →
      (applyOutcomes tasks outs s)[(tasks.get ⟨k, h1⟩).1]? =
        some (some (outs.get ⟨k, h2⟩)) := by
  intro tasks
  induction tasks with
  | nil => intro outs s k h1; simp at h1
  | cons p ts ih =>
    intro outs s k h1 h2 hnd hlt
    cases outs with
    | nil => simp at h2
    | cons o os =>
      have hnd2 : (p.1 :: ts.map Prod.fst).Nodup := by
        simpa using hnd
      match k with
      | 0 =>
        show (applyOutcomes ts os (s.set p.1 (some o)))[p.1]? = some (some o)
        have hj : p.1 ∉ ts.map Prod.fst := (List.nodup_cons.mp hnd2).1
        rw [applyOutcomes_getElem_not_mem ts os _ hj]
        simp only [List.get] at hlt
        rw [List.getElem?_set_self]
        simp [hlt]
      | Nat.succ k =>
        have h1' : k < ts.length := by simpa using h1
        have h2' : k < os.length := by simpa using h2
        have hnd' : (ts.map Prod.fst).Nodup := (List.nodup_cons.mp hnd2).2
        have hlt' : (ts.get ⟨k, h1'⟩).1 < (s.set p.1 (some o)).length := by
          simpa using hlt
        exact ih os (s.set p.1 (some o)) k h1' h2' hnd' hlt'

theorem fillUncollected_length :
    ∀ (tasks : List (Nat × Nat)) (e : Exc)
      (s : List (Option (Except Exc β))),
      (fillUncollected tasks e s).length = s.length := by
  intro tasks
  induction tasks with
  | nil => intro e s; rfl
  | cons p ts ih =>
    intro e s
    show (fillUncollected ts e _).length = s.length
    rw [ih]
    cases h : s[p.1]? with
    | none => simp [h]
    | some v => cases v <;> simp [h]

theorem fillUncollected_getElem_isSome {j : Nat} {v : Except Exc β} :
    ∀ (tasks : List (Nat × Nat)) (e : Exc)
      (s : List (Option (Except Exc β))),
      s[j]? = some (some v) →
      (fillUncollected tasks e s)[j]? = some (some v) := by
  intro tasks
  induction tasks with
  | nil => intro e s h; exact h
  | cons p ts ih =>
    intro e s h
    show (fillUncollected ts e _)[j]? = some (some v)
    apply ih
    cases hp : s[p.1]? with
    | none => simpa [hp] using h
    | some w =>
      cases w with
      | none =>
        have hne : j ≠ p.1 := by
          intro hc; rw [hc, hp] at h; exact Option.noConfusion (Option.some.inj h)
        simp only [hp]
        rw [List.getElem?_set_ne (fun hc => hne hc.symm)]
        exact h
      | some w => simpa [hp] using h

theorem dictInsert_vals_subset {d : List (Nat × Nat)} {key v x : Nat}
    (h : x ∈ (dictInsert d key v).map Prod.snd) :
    x ∈ d.map Prod.snd ∨ x = v := by
  unfold dictInsert at h
  by_cases hc : d.any (fun p => p.1 == key)
  · rw [if_pos hc, List.map_map] at h
    obtain ⟨p, hp, hx⟩ := List.mem_map.mp h
    by_cases hpk : p.1 == key
    · right
      simp only [Function.comp, hpk, if_pos] at hx
      exact hx.symm
    · left
      simp only [Function.comp, hpk] at hx
      exact hx ▸ List.mem_map.mpr ⟨p, hp, rfl⟩
  · rw [if_neg hc, List.map_append] at h
    rcases List.mem_append.mp h with h1 | h2
    · exact Or.inl h1
    · right; simpa using h2

theorem foldl_dictInsert_vals :
    ∀ (ts : List (Nat × Nat)) (d : List (Nat × Nat)) (x : Nat),
      x ∈ ((ts.foldl (fun d p => dictInsert d p.2 p.1) d).map Prod.snd) →
      x ∈ d.map Prod.snd ∨ x ∈ ts.map Prod.fst := by
  intro ts
  induction ts with
  | nil => intro d x h; exact Or.inl h
  | cons p ts ih =>
    intro d x h
    rcases ih (dictInsert d p.2 p.1) x h with h1 | h2
    · rcases dictInsert_vals_subset h1 with h3 | h4
      · exact Or.inl h3
      · exact Or.inr (by simp [h4])
    · exact Or.inr (by simp [h2])

theorem dictOfTasks_vals_subset {tasks : List (Nat × Nat)} {x : Nat}
    (h : x ∈ (dictOfTasks tasks).map Prod.snd) :
    x ∈ tasks.map Prod.fst := by
  rcases foldl_dictInsert_vals tasks [] x h with h1 | h2
  · simp at h1
  · exact h2

theorem dictPop_sound {d : List (Nat × Nat)} {key idx : Nat}
    {d2 : List (Nat × Nat)} (h : dictPop d key = some (idx, d2)) :
    idx ∈ d.map Prod.snd ∧ (∀ x ∈ d2.map Prod.snd, x ∈ d.map Prod.snd) := by
  unfold dictPop at h
  cases hf : d.find? (fun p => p.1 == key) with
  | none => rw [hf] at h; exact Option.noConfusion h
  | some p =>
    rw [hf] at h
    have hp : p ∈ d := List.mem_of_find?_eq_some hf
    have heq : p.2 = idx ∧ d.filter (fun q => q.1 != key) = d2 := by
      have := Option.some.inj h
      exact ⟨congrArg Prod.fst this, congrArg Prod.snd this⟩
    constructor
    · rw [← heq.1]
      exact List.mem_map.mpr ⟨p, hp, rfl⟩
    · intro x hx
      rw [← heq.2] at hx
      obtain ⟨q, hq, hxq⟩ := List.mem_map.mp hx
      exact List.mem_map.mpr ⟨q, List.mem_of_mem_filter hq, hxq⟩

theorem mismatchLoop_untouched (ids : List Nat) (j : Nat) :
    ∀ (outs : List (Except Exc β)) (k : Nat) (d : List (Nat × Nat))
      (s : List (Option (Except Exc β))),
      j ∉ d.map Prod.snd →
      ((mismatchLoop ids outs k d s).2.1)[j]? = s[j]? ∧
      (∀ x ∈ ((mismatchLoop ids outs k d s).1).map Prod.snd,
        x ∈ d.map Prod.snd) := by
  intro outs
  induction outs with
  | nil => intro k d s _; exact ⟨rfl, fun x hx => hx⟩
  | cons o os ih =>
    intro k d s hj
    simp only [mismatchLoop]
    cases hk : ids[k]? with
    | none => exact ⟨rfl, fun x hx => hx⟩
    | some tid =>
      change (match dictPop d tid with
          | none => (d, s, some Exc.keyError)
          | some (idx, d2) =>
            mismatchLoop ids os (k + 1) d2 (s.set idx (some o))).2.1[j]? =
            s[j]? ∧
        ∀ x ∈ ((match dictPop d tid with
          | none => (d, s, some Exc.keyError)
          | some (idx, d2) =>
            mismatchLoop ids os (k + 1) d2
              (s.set idx (some o))).1).map Prod.snd,
          x ∈ d.map Prod.snd
      cases hp : dictPop d tid with
      | none => exact ⟨rfl, fun x hx => hx⟩
      | some pair =>
        obtain ⟨idx, d2⟩ := pair
        obtain ⟨hidx, hsub⟩ := dictPop_sound hp
        have hj2 : j ∉ d2.map Prod.snd := fun hc => hj (hsub j hc)
        have hji : j ≠ idx := fun hc => hj (hc ▸ hidx)
        obtain ⟨h1, h2⟩ := ih (k + 1) d2 (s.set idx (some o)) hj2
        refine ⟨?_, fun x hx => hsub x (h2 x hx)⟩
        rw [h1]
        exact List.getElem?_set_ne (fun hc => hji hc.symm)

theorem mismatchLoop_length (ids : List Nat) :
    ∀ (outs : List (Except Exc β)) (k : Nat) (d : List (Nat × Nat))
      (s : List (Option (Except Exc β))),
      ((mismatchLoop ids outs k d s).2.1).length = s.length := by
  intro outs
  induction outs with
  | nil => intro k d s; rfl
  | cons o os ih =>
    intro k d s
    simp only [mismatchLoop]
    cases hk : ids[k]? with
    | none => rfl
    | some tid =>
      change (match dictPop d tid with
          | none => (d, s, some Exc.keyError)
          | some (idx, d2) =>
            mismatchLoop ids os (k + 1) d2 (s.set idx (some o))).2.1.length =
        s.length
      cases hp : dictPop d tid with
      | none => rfl
      | some pair =>
        obtain ⟨idx, d2⟩ := pair
        change (mismatchLoop ids os (k + 1) d2 (s.set idx (some o))).2.1.length =
          s.length
        rw [ih (k + 1) d2 (s.set idx (some o))]
        simp

theorem foldl_markFailed_untouched {j : Nat} :
    ∀ (d : List (Nat × Nat)) (s : List (Option (Except Exc β))),
      j ∉ d.map Prod.snd →
      (d.foldl (fun acc p => acc.set p.2 (some (.error .runtimeError))) s)[j]? =
        s[j]? := by
  intro d
  induction d with
  | nil => intro s _; rfl
  | cons p dd ih =>
    intro s hj
    have hj2 : j ∉ dd.map Prod.snd := fun hc => hj (by simp [hc])
    have hne : j ≠ p.2 := fun hc => hj (by simp [hc])
    show (dd.foldl _ (s.set p.2 (some (.error .runtimeError))))[j]? = s[j]?
    rw [ih _ hj2]
    exact List.getElem?_set_ne (fun hc => hne hc.symm)

theorem foldl_markFailed_length :
    ∀ (d : List (Nat × Nat)) (s : List (Option (Except Exc β))),
      (d.foldl (fun acc p => acc.set p.2 (some (.error .runtimeError))) s).length =
        s.length := by
  intro d
  induction d with
  | nil => intro s; rfl
  | cons p dd ih =>
    intro s
    show (dd.foldl _ (s.set p.2 (some (.error .runtimeError)))).length = s.length
    rw [ih]
    simp

theorem mismatchBranch_length (ids : List Nat) (outs : List (Except Exc β))
    (tasks : List (Nat × Nat)) (s : List (Option (Except Exc β))) :
    ((mismatchBranch ids outs tasks s).1).length = s.length := by
  unfold mismatchBranch
  cases hml : mismatchLoop ids outs 0 (dictOfTasks tasks) s with
  | mk d2 rest =>
    obtain ⟨s2, oe⟩ := rest
    have hlen : s2.length = s.length := by
      have := mismatchLoop_length ids outs 0 (dictOfTasks tasks) s
      rw [hml] at this
      exact this
    cases oe with
    | none => simpa [foldl_markFailed_length] using hlen
    | some e => simpa using hlen

theorem mismatchBranch_untouched (ids : List Nat) {j : Nat}
    {v : Except Exc β} (outs : List (Except Exc β))
    (tasks : List (Nat × Nat)) (s : List (Option (Except Exc β)))
    (hj : j ∉ tasks.map Prod.fst) (hv : s[j]? = some (some v)) :
    ((mismatchBranch ids outs tasks s).1)[j]? = some (some v) ∧
    (∀ e, (mismatchBranch ids outs tasks s).2 = some e →
      ((mismatchBranch ids outs tasks s).1)[j]? = some (some v)) := by
  have hjd : j ∉ (dictOfTasks tasks).map Prod.snd :=
    fun hc => hj (dictOfTasks_vals_subset hc)
  unfold mismatchBranch
  cases hml : mismatchLoop ids outs 0 (dictOfTasks tasks) s with
  | mk d2 rest =>
    obtain ⟨s2, oe⟩ := rest
    obtain ⟨hu, hd⟩ := mismatchLoop_untouched ids j outs 0
      (dictOfTasks tasks) s hjd
    rw [hml] at hu hd
    simp only at hu hd
    have hs2 : s2[j]? = some (some v) := by rw [hu]; exact hv
    have hjd2 : j ∉ d2.map Prod.snd := fun hc => hjd (hd j hc)
    cases oe with
    | none =>
      constructor
      · simpa [foldl_markFailed_untouched d2 s2 hjd2] using hs2
      · intro e he
        exact absurd he (by simp)
    | some e =>
      exact ⟨hs2, fun _ _ => hs2⟩

theorem collectPhase_length (g : List Nat → Except Exc (List (Except Exc β)))
    (tasks : List (Nat × Nat)) (s : List (Option (Except Exc β))) :
    (collectPhase g tasks s).length = s.length := by
  show (if (tasks.map Prod.snd).isEmpty then s
    else
      match g (tasks.map Prod.snd) with
      | .error e_collect => fillUncollected tasks e_collect s
      | .ok task_outcomes =>
        if task_outcomes.length ≠ (tasks.map Prod.snd).length then
          match mismatchBranch (tasks.map Prod.snd) task_outcomes tasks s with
          | (slots2, none) => slots2
          | (slots2, some e_collect) => fillUncollected tasks e_collect slots2
        else applyOutcomes tasks task_outcomes s).length = s.length
  by_cases hids : (tasks.map Prod.snd).isEmpty
  · rw [if_pos hids]
  · rw [if_neg hids]
    cases hg : g (tasks.map Prod.snd) with
    | error e => exact fillUncollected_length tasks e s
    | ok outcomes =>
      change (if outcomes.length ≠ (tasks.map Prod.snd).length then
          match mismatchBranch (tasks.map Prod.snd) outcomes tasks s with
          | (slots2, none) => slots2
          | (slots2, some e_collect) => fillUncollected tasks e_collect slots2
        else applyOutcomes tasks outcomes s).length = s.length
      by_cases hlen : outcomes.length ≠ (tasks.map Prod.snd).length
      · rw [if_pos hlen]
        cases hmb : mismatchBranch (tasks.map Prod.snd) outcomes tasks s with
        | mk s2 oe =>
          have h2 : s2.length = s.length := by
            have hh := mismatchBranch_length (tasks.map Prod.snd) outcomes tasks s
            rw [hmb] at hh
            exact hh
          cases oe with
          | none => exact h2
          | some e => rw [fillUncollected_length]; exact h2
      · rw [if_neg hlen]
        exact applyOutcomes_length tasks outcomes s

theorem collectPhase_untouched {j : Nat} {v : Except Exc β}
    (g : List Nat → Except Exc (List (Except Exc β)))
    (tasks : List (Nat × Nat)) (s : List (Option (Except Exc β)))
    (hj : j ∉ tasks.map Prod.fst) (hv : s[j]? = some (some v)) :
    (collectPhase g tasks s)[j]? = some (some v) := by
  show (if (tasks.map Prod.snd).isEmpty then s
    else
      match g (tasks.map Prod.snd) with
      | .error e_collect => fillUncollected tasks e_collect s
      | .ok task_outcomes =>
        if task_outcomes.length ≠ (tasks.map Prod.snd).length then
          match mismatchBranch (tasks.map Prod.snd) task_outcomes tasks s with
          | (slots2, none) => slots2
          | (slots2, some e_collect) => fillUncollected tasks e_collect slots2
        else applyOutcomes tasks task_outcomes s)[j]? = some (some v)
  by_cases hids : (tasks.map Prod.snd).isEmpty
  · rw [if_pos hids]; exact hv
  · rw [if_neg hids]
    cases hg : g (tasks.map Prod.snd) with
    | error e => exact fillUncollected_getElem_isSome tasks e s hv
    | ok outcomes =>
      change (if outcomes.length ≠ (tasks.map Prod.snd).length then
          match mismatchBranch (tasks.map Prod.snd) outcomes tasks s with
          | (slots2, none) => slots2
          | (slots2, some e_collect) => fillUncollected tasks e_collect slots2
        else applyOutcomes tasks outcomes s)[j]? = some (some v)
      by_cases hlen : outcomes.length ≠ (tasks.map Prod.snd).length
      · rw [if_pos hlen]
        obtain ⟨h1, h2⟩ := mismatchBranch_untouched
          (tasks.map Prod.snd) outcomes tasks s hj hv
        cases hmb : mismatchBranch (tasks.map Prod.snd) outcomes tasks s with
        | mk s2 oe =>
          rw [hmb] at h1 h2
          cases oe with
          | none => exact h1
          | some e =>
            exact fillUncollected_getElem_isSome tasks e s2 (h2 e rfl)
      · rw [if_neg hlen]
        rw [applyOutcomes_getElem_not_mem tasks outcomes s hj]
        exact hv

theorem finalizeSlots_length (s : List (Option (Except Exc β))) :
    (finalizeSlots s).length = s.length := by
  simp [finalizeSlots]

theorem finalizeSlots_getElem_some {j : Nat} {v : Except Exc β}
    (s : List (Option (Except Exc β))) (h : s[j]? = some (some v)) :
    (finalizeSlots s)[j]? = some v := by
  unfold finalizeSlots
  rw [List.getElem?_map, h]
  rfl

theorem run_dispatch (env : RunEnv α β) (data : List α) (k : Int)
    (chunks : List (List α)) (hc : env.callable = true)
    (hs : env.serialize = .ok ()) (hk : workerCountStep env = .ok k)
    (hsp : splitStep env data k = .ok chunks)
    (hne : (chunks.isEmpty && data.isEmpty) = false) :
    Master.run env data = .ok (finalizeSlots (collectPhase env.getResultsForIds
      (submittedTasks env.submitTask chunks.length)
      (submitSlots β env.submitTask chunks.length))) := by
  simp [Master.run, hc, hs, hk, hsp, hne]

theorem run_empty (env : RunEnv α β) (data : List α) (k : Int)
    (chunks : List (List α)) (hc : env.callable = true)
    (hs : env.serialize = .ok ()) (hk : workerCountStep env = .ok k)
    (hsp : splitStep env data k = .ok chunks)
    (hem : (chunks.isEmpty && data.isEmpty) = true) :
    Master.run env data = .ok [] := by
  simp [Master.run, hc, hs, hk, hsp, hem]

theorem runEvents_dispatch (env : RunEnv α β) (data : List α) (k : Int)
    (chunks : List (List α)) (hc : env.callable = true)
    (hs : env.serialize = .ok ()) (hk : workerCountStep env = .ok k)
    (hsp : splitStep env data k = .ok chunks)
    (hne : (chunks.isEmpty && data.isEmpty) = false) :
    Master.runEvents env data =
      (List.range chunks.length).map RunEvent.submit ++
        (if ((submittedTasks env.submitTask chunks.length).map
            Prod.snd).isEmpty then []
         else [RunEvent.fetch ((submittedTasks env.submitTask
            chunks.length).map Prod.snd)]) := by
  simp [Master.runEvents, hc, hs, hk, hsp, hne]

theorem takeWhile_submit_append (l : List Nat) (t : List RunEvent) :
    ((l.map RunEvent.submit) ++ t).takeWhile RunEvent.isSubmit =
      l.map RunEvent.submit ++ t.takeWhile RunEvent.isSubmit := by
  induction l with
  | nil => rfl
  | cons a l ih => simp [List.takeWhile_cons, RunEvent.isSubmit, ih]

theorem filter_not_submit_append (l : List Nat) (t : List RunEvent) :
    ((l.map RunEvent.submit) ++ t).filter (fun ev => !ev.isSubmit) =
      t.filter (fun ev => !ev.isSubmit) := by
  induction l with
  | nil => rfl
  | cons a l ih => simp [List.filter_cons, RunEvent.isSubmit, ih]

theorem chunks_nonempty_of_lt {chunks : List (List α)} {data : List α}
    {i : Nat} (hi : i < chunks.length) :
    (chunks.isEmpty && data.isEmpty) = false := by
  cases chunks with
  | nil => simp at hi
  | cons c cs => rfl

/-- Core lemma: when every submission succeeds and the manager returns a
consistent outcome list, `run` returns it slot-for-slot. -/
theorem run_normal_case (env : RunEnv α β) (data : List α) (k : Int)
    (chunks : List (List α)) (hc : env.callable = true)
    (hs : env.serialize = .ok ()) (hk : workerCountStep env = .ok k)
    (hsp : splitStep env data k = .ok chunks)
    (hallok : ∀ i, i < chunks.length → (env.submitTask i).isOk = true)
    (outs : List (Except Exc β))
    (hout : env.getResultsForIds
      ((submittedTasks env.submitTask chunks.length).map Prod.snd) = .ok outs)
    (hlen : outs.length = chunks.length) :
    ∃ res, Master.run env data = .ok res ∧ res.length = chunks.length ∧
      ∀ i, i < chunks.length → res[i]? = outs[i]? := by
  by_cases hem : (chunks.isEmpty && data.isEmpty) = true
  · refine ⟨[], run_empty env data k chunks hc hs hk hsp hem, ?_, ?_⟩
    · have : chunks = [] := by
        cases chunks with
        | nil => rfl
        | cons c cs => simp at hem
      simp [this]
    · intro i hi
      have : chunks = [] := by
        cases chunks with
        | nil => rfl
        | cons c cs => simp at hem
      rw [this] at hi
      simp at hi
  · have hne : (chunks.isEmpty && data.isEmpty) = false := by
      cases hb : (chunks.isEmpty && data.isEmpty) with
      | true => exact absurd hb hem
      | false => rfl
    set N := chunks.length with hN
    set tasks := submittedTasks env.submitTask N with htasks
    set slots := submitSlots β env.submitTask N with hslots
    have htasks_eq : tasks = (List.range N).map (fun i => (i, okId env.submitTask i)) := by
      rw [htasks]
      exact submittedTasks_allOk (by rw [hN] at *; exact hallok)
    have htlen : tasks.length = N := by rw [htasks_eq]; simp
    have hslen : slots.length = N := by rw [hslots]; exact submitSlots_length β _ N
    refine ⟨finalizeSlots (collectPhase env.getResultsForIds tasks slots),
      run_dispatch env data k chunks hc hs hk hsp hne, ?_, ?_⟩
    · rw [finalizeSlots_length, collectPhase_length, hslen]
    · intro i hi
      -- reduce the collection phase to the consistent-count branch
      have hids_len : (tasks.map Prod.snd).length = N := by
        rw [List.length_map, htlen]
      have hids_ne : (tasks.map Prod.snd).isEmpty = false := by
        cases hb : (tasks.map Prod.snd).isEmpty with
        | false => rfl
        | true =>
          have := List.isEmpty_iff.mp hb
          have hlen0 : (tasks.map Prod.snd).length = 0 := by rw [this]; rfl
          rw [hids_len] at hlen0
          omega
      have hcc : collectPhase env.getResultsForIds tasks slots =
          applyOutcomes tasks outs slots := by
        show (if (tasks.map Prod.snd).isEmpty then slots
          else
            match env.getResultsForIds (tasks.map Prod.snd) with
            | .error e_collect => fillUncollected tasks e_collect slots
            | .ok task_outcomes =>
              if task_outcomes.length ≠ (tasks.map Prod.snd).length then
                match mismatchBranch (tasks.map Prod.snd) task_outcomes
                    tasks slots with
                | (slots2, none) => slots2
                | (slots2, some e_collect) =>
                  fillUncollected tasks e_collect slots2
              else applyOutcomes tasks task_outcomes slots) =
          applyOutcomes tasks outs slots
        rw [if_neg (by simp [hids_ne])]
        rw [show env.getResultsForIds (tasks.map Prod.snd) = .ok outs from hout]
        have hlens : ¬ (outs.length ≠ (tasks.map Prod.snd).length) := by
          rw [hids_len, hlen]
          simp
        change (if outs.length ≠ (tasks.map Prod.snd).length then
            match mismatchBranch (tasks.map Prod.snd) outs tasks slots with
            | (slots2, none) => slots2
            | (slots2, some e_collect) => fillUncollected tasks e_collect slots2
          else applyOutcomes tasks outs slots) = applyOutcomes tasks outs slots
        rw [if_neg hlens]
      rw [hcc]
      have hi' : i < tasks.length := by rw [htlen]; exact hi
      have hio : i < outs.length := by rw [hlen]; exact hi
      have hget : (tasks.get ⟨i, hi'⟩).1 = i := by
        simp [htasks_eq]
      have happ := applyOutcomes_getElem_at tasks outs slots i hi' hio
        (by rw [htasks]; exact submittedTasks_fst_nodup _ _)
        (by rw [hget, hslen]; exact hi)
      rw [hget] at happ
      rw [finalizeSlots_getElem_some _ happ]
      rw [List.getElem?_eq_getElem hio]
      rfl

/-- Core lemma: a chunk whose submission raised keeps that exception as
its slot value whatever the collection phase later does. -/
theorem run_submit_err_slot (env : RunEnv α β) (data : List α) (k : Int)
    (chunks : List (List α)) (hc : env.callable = true)
    (hs : env.serialize = .ok ()) (hk : workerCountStep env = .ok k)
    (hsp : splitStep env data k = .ok chunks)
    {i : Nat} {e : Exc} (hi : i < chunks.length)
    (hsub : env.submitTask i = .error e) :
    ∃ res, Master.run env data = .ok res ∧ res[i]? = some (.error e) ∧
      res.length = chunks.length := by
  have hne : (chunks.isEmpty && data.isEmpty) = false :=
    chunks_nonempty_of_lt hi
  set N := chunks.length with hN
  set tasks := submittedTasks env.submitTask N with htasks
  set slots := submitSlots β env.submitTask N with hslots
  have hslot : slots[i]? = some (some (.error e)) := by
    rw [hslots]
    exact submitSlots_getElem_err β _ hi hsub
  have hnotmem : i ∉ tasks.map Prod.fst := by
    intro hmem
    rw [htasks] at hmem
    have := (mem_fst_submittedTasks hmem).2
    rw [hsub] at this
    simp [Except.isOk, Except.toBool] at this
  refine ⟨finalizeSlots (collectPhase env.getResultsForIds tasks slots),
    run_dispatch env data k chunks hc hs hk hsp hne, ?_, ?_⟩
  · exact finalizeSlots_getElem_some _
      (collectPhase_untouched env.getResultsForIds tasks slots hnotmem hslot)
  · rw [finalizeSlots_length, collectPhase_length]
    rw [hslots]
    exact submitSlots_length β _ N

/-- Claim C1: whenever `Master.run` returns a result list, the list has
exactly one slot per chunk of the strategy's split, every slot is
populated (each entry is a value or an error object, never absent), a
chunk whose submission failed holds that submission error at its own
index, and in the consistent case slot `i` holds the manager-reported
outcome of chunk `i` — the outcomes list is indexed by submission order,
which is partition order, independently of completion order. -/
theorem master_run_C1 {α β : Type} (env : RunEnv α β) (data : List α)
    (k : Int) (chunks : List (List α)) (res : List (Except Exc β))
    (hc : env.callable = true) (hs : env.serialize = .ok ())
    (hk : workerCountStep env = .ok k)
    (hsp : splitStep env data k = .ok chunks)
    (hrun : Master.run env data = .ok res) :
    res.length = chunks.length ∧
    (∀ i, i < res.length → res[i]? ≠ none) ∧
    (∀ i e, i < chunks.length → env.submitTask i = .error e →
      res[i]? = some (.error e)) ∧
    ((∀ i, i < chunks.length → (env.submitTask i).isOk = true) →
      ∀ outs, env.getResultsForIds
          ((submittedTasks env.submitTask chunks.length).map Prod.snd) =
            .ok outs →
        outs.length = chunks.length →
        ∀ i, i < chunks.length → res[i]? = outs[i]?) := by
  refine ⟨?_, ?_, ?_, ?_⟩
  · by_cases hem : (chunks.isEmpty && data.isEmpty) = true
    · have h0 := run_empty env data k chunks hc hs hk hsp hem
      rw [hrun] at h0
      have hres : res = [] := Except.ok.inj h0
      have hch : chunks = [] := by
        cases chunks with
        | nil => rfl
        | cons c cs => simp at hem
      rw [hres, hch]
      rfl
    · have hne : (chunks.isEmpty && data.isEmpty) = false := by
        cases hb : (chunks.isEmpty && data.isEmpty) with
        | true => exact absurd hb hem
        | false => rfl
      have hd := run_dispatch env data k chunks hc hs hk hsp hne
      rw [hrun] at hd
      have hres := Except.ok.inj hd
      rw [hres, finalizeSlots_length, collectPhase_length,
        submitSlots_length]
  · intro i hi
    rw [List.getElem?_eq_getElem hi]
    simp
  · intro i e hi hsub
    obtain ⟨res', hr', hslot, _⟩ :=
      run_submit_err_slot env data k chunks hc hs hk hsp hi hsub
    rw [hrun] at hr'
    rw [Except.ok.inj hr']
    exact hslot
  · intro hallok outs hout hlen
    obtain ⟨res', hr', _, hmap⟩ :=
      run_normal_case env data k chunks hc hs hk hsp hallok outs hout hlen
    rw [hrun] at hr'
    intro i hi
    rw [Except.ok.inj hr']
    exact hmap i hi

/-- Environment of a clean two-chunk run on the local manager model:
two workers, even split of `[7, 8, 9]`, task ids `100 + i`, the manager
doubling each id as the task's result. -/
def envC1 : RunEnv Int Nat :=
  ⟨true, .ok (), some (.ok 2), DefaultDistributionStrategy.split_data,
    fun i => .ok (100 + i), fun ids => .ok (ids.map (fun t => .ok (t * 2)))⟩

/-- Witness for C1: the run of `envC1` on `[7, 8, 9]` returns
`[ok 200, ok 202]`, one slot per chunk of `[[7, 8], [9]]`, in chunk
order. -/
theorem master_run_C1_witness :
    (([Except.ok 200, Except.ok 202] : List (Except Exc Nat)).length =
      ([[7, 8], [9]] : List (List Int)).length) ∧
    (∀ i, i < ([Except.ok 200, Except.ok 202] :
        List (Except Exc Nat)).length →
      ([Except.ok 200, Except.ok 202] : List (Except Exc Nat))[i]? ≠ none) ∧
    (∀ i e, i < ([[7, 8], [9]] : List (List Int)).length →
      envC1.submitTask i = .error e →
      ([Except.ok 200, Except.ok 202] : List (Except Exc Nat))[i]? =
        some (.error e)) ∧
    ((∀ i, i < ([[7, 8], [9]] : List (List Int)).length →
        (envC1.submitTask i).isOk = true) →
      ∀ outs, envC1.getResultsForIds
          ((submittedTasks envC1.submitTask
            ([[7, 8], [9]] : List (List Int)).length).map Prod.snd) =
            .ok outs →
        outs.length = ([[7, 8], [9]] : List (List Int)).length →
        ∀ i, i < ([[7, 8], [9]] : List (List Int)).length →
          ([Except.ok 200, Except.ok 202] :
            List (Except Exc Nat))[i]? = outs[i]?) :=
  master_run_C1 envC1 [7, 8, 9] 2 [[7, 8], [9]] [.ok 200, .ok 202]
    rfl rfl (by decide) (by decide) (by decide)

/-- Claim C5: when the task of chunk `i` resolves with an error (the
user function raised inside the worker, which the worker helper returns
as a value), that error object is stored in slot `i`, `run` still
returns normally, and the remaining chunks keep their own outcomes. -/
theorem master_run_C5 {α β : Type} (env : RunEnv α β) (data : List α)
    (k : Int) (chunks : List (List α)) (hc : env.callable = true)
    (hs : env.serialize = .ok ()) (hk : workerCountStep env = .ok k)
    (hsp : splitStep env data k = .ok chunks)
    (hallok : ∀ i, i < chunks.length → (env.submitTask i).isOk = true)
    (outs : List (Except Exc β))
    (hout : env.getResultsForIds
      ((submittedTasks env.submitTask chunks.length).map Prod.snd) = .ok outs)
    (hlen : outs.length = chunks.length)
    (i : Nat) (e : Exc) (hi : i < chunks.length)
    (he : outs[i]? = some (.error e)) :
    ∃ res, Master.run env data = .ok res ∧
      res[i]? = some (.error e) ∧
      (∀ j, j < chunks.length → res[j]? = outs[j]?) ∧
      (∀ (uf : List α → Except Exc β) (chunk : List α),
        uf chunk = .error e →
        _execute_task_in_worker_process uf chunk = .error e) := by
  obtain ⟨res, hr, _, hmap⟩ :=
    run_normal_case env data k chunks hc hs hk hsp hallok outs hout hlen
  refine ⟨res, hr, ?_, hmap, ?_⟩
  · rw [hmap i hi, he]
  · intro uf chunk hf
    simp [_execute_task_in_worker_process, Slave.execute_task, hf]

/-- Environment where the task for chunk 1 (task id 101) resolves with a
`TypeError` raised by the user function. -/
def envC5 : RunEnv Int Nat :=
  ⟨true, .ok (), some (.ok 2), DefaultDistributionStrategy.split_data,
    fun i => .ok (100 + i),
    fun ids => .ok (ids.map (fun t =>
      if t == 101 then .error .typeError else .ok (t * 2)))⟩

/-- Witness for C5: chunk 1 of `envC5` fails with a `TypeError`; the run
returns `[ok 200, err TypeError]` without raising. -/
theorem master_run_C5_witness :
    ∃ res, Master.run envC5 [7, 8, 9] = .ok res ∧
      res[1]? = some (.error .typeError) ∧
      (∀ j, j < ([[7, 8], [9]] : List (List Int)).length →
        res[j]? = ([Except.ok 200, Except.error Exc.typeError] :
          List (Except Exc Nat))[j]?) ∧
      (∀ (uf : List Int → Except Exc Nat) (chunk : List Int),
        uf chunk = .error .typeError →
        _execute_task_in_worker_process uf chunk = .error .typeError) :=
  master_run_C5 envC5 [7, 8, 9] 2 [[7, 8], [9]] rfl rfl (by decide)
    (by decide) (by decide) [.ok 200, .error .typeError] (by decide)
    (by decide) 1 .typeError (by decide) (by decide)

/-- Claim C6: when submitting the task for chunk `i` throws, the
submission error becomes the value of slot `i`, `run` still returns a
full result list, and the loop goes on to attempt every later chunk's
submission. -/
theorem master_run_C6 {α β : Type} (env : RunEnv α β) (data : List α)
    (k : Int) (chunks : List (List α)) (hc : env.callable = true)
    (hs : env.serialize = .ok ()) (hk : workerCountStep env = .ok k)
    (hsp : splitStep env data k = .ok chunks)
    (i : Nat) (e : Exc) (hi : i < chunks.length)
    (hsub : env.submitTask i = .error e) :
    ∃ res, Master.run env data = .ok res ∧
      res[i]? = some (.error e) ∧
      res.length = chunks.length ∧
      (∀ j, j < chunks.length →
        RunEvent.submit j ∈ Master.runEvents env data) := by
  obtain ⟨res, hr, hslot, hlen⟩ :=
    run_submit_err_slot env data k chunks hc hs hk hsp hi hsub
  refine ⟨res, hr, hslot, hlen, ?_⟩
  intro j hj
  rw [runEvents_dispatch env data k chunks hc hs hk hsp
    (chunks_nonempty_of_lt hi)]
  exact List.mem_append_left _
    (List.mem_map.mpr ⟨j, List.mem_range.mpr hj, rfl⟩)

/-- Environment where submitting chunk 1 raises while chunks 0 and 2
submit fine. -/
def envC6 : RunEnv Int Nat :=
  ⟨true, .ok (), some (.ok 3), DefaultDistributionStrategy.split_data,
    fun i => if i == 1 then .error .runtimeError else .ok (100 + i),
    fun ids => .ok (ids.map (fun t => .ok (t * 2)))⟩

/-- Witness for C6: with `envC6`, slot 1 carries the submission error and
all three chunks were submitted (the run returns
`[ok 200, err RuntimeError, ok 204]`). -/
theorem master_run_C6_witness :
    ∃ res, Master.run envC6 [7, 8, 9] = .ok res ∧
      res[1]? = some (.error .runtimeError) ∧
      res.length = ([[7], [8], [9]] : List (List Int)).length ∧
      (∀ j, j < ([[7], [8], [9]] : List (List Int)).length →
        RunEvent.submit j ∈ Master.runEvents envC6 [7, 8, 9]) :=
  master_run_C6 envC6 [7, 8, 9] 3 [[7], [8], [9]] rfl rfl (by decide)
    (by decide) 1 .runtimeError (by decide) (by decide)

/-- Environment with one active worker whose (custom) strategy returns
three chunks, so that the chunk count exceeds the worker count. -/
def envC3 : RunEnv Int Int :=
  ⟨true, .ok (), some (.ok 1), fun _ _ => .ok [[10], [20], [30]],
    fun i => .ok (100 + i), fun ids => .ok (ids.map (fun _ => .ok 0))⟩

/-- Counterexample to claim C3: with `W = 1` worker and `N = 3` chunks,
`Master.run` performs all three submissions before its single result
collection — not only the first `min(W, N) = 1`.  There is no
bootstrap-then-refill dispatch. -/
theorem master_run_C3_counterexample :
    workerCountStep envC3 = .ok 1 ∧
    splitStep envC3 [10, 20, 30] 1 = .ok [[10], [20], [30]] ∧
    ((Master.runEvents envC3 [10, 20, 30]).takeWhile
      RunEvent.isSubmit).length = 3 ∧
    ((Master.runEvents envC3 [10, 20, 30]).takeWhile
      RunEvent.isSubmit).length ≠ min 1 3 :=
  ⟨by decide, by decide, by decide, by decide⟩

/-- Claim C3 (amended): whatever the worker count, `Master.run` submits
*all* `N` chunks up front — every chunk index is submitted, all
submissions precede any result collection, and results are collected in
at most one batched call (there is no refill-on-completion). -/
theorem master_run_C3_amended {α β : Type} (env : RunEnv α β)
    (data : List α) (k : Int) (chunks : List (List α))
    (hc : env.callable = true) (hs : env.serialize = .ok ())
    (hk : workerCountStep env = .ok k)
    (hsp : splitStep env data k = .ok chunks)
    (hne : (chunks.isEmpty && data.isEmpty) = false) :
    (∀ i, i < chunks.length →
      RunEvent.submit i ∈ Master.runEvents env data) ∧
    (Master.runEvents env data).takeWhile RunEvent.isSubmit =
      (List.range chunks.length).map RunEvent.submit ∧
    ((Master.runEvents env data).filter (fun ev => !ev.isSubmit)).length
      ≤ 1 := by
  rw [runEvents_dispatch env data k chunks hc hs hk hsp hne]
  refine ⟨?_, ?_, ?_⟩
  · intro i hi
    exact List.mem_append_left _
      (List.mem_map.mpr ⟨i, List.mem_range.mpr hi, rfl⟩)
  · rw [takeWhile_submit_append]
    by_cases hids : ((submittedTasks env.submitTask chunks.length).map
        Prod.snd).isEmpty
    · rw [if_pos hids]
      simp
    · rw [if_neg hids]
      simp [List.takeWhile_cons, RunEvent.isSubmit]
  · rw [filter_not_submit_append]
    by_cases hids : ((submittedTasks env.submitTask chunks.length).map
        Prod.snd).isEmpty
    · rw [if_pos hids]
      simp
    · rw [if_neg hids]
      simp [List.filter_cons, RunEvent.isSubmit]

/-- Witness for the amended C3 on `envC3`: all three chunks are
submitted before the one batched collection. -/
theorem master_run_C3_amended_witness :
    (∀ i, i < ([[10], [20], [30]] : List (List Int)).length →
      RunEvent.submit i ∈ Master.runEvents envC3 [10, 20, 30]) ∧
    (Master.runEvents envC3 [10, 20, 30]).takeWhile RunEvent.isSubmit =
      (List.range ([[10], [20], [30]] : List (List Int)).length).map
        RunEvent.submit ∧
    ((Master.runEvents envC3 [10, 20, 30]).filter
      (fun ev => !ev.isSubmit)).length ≤ 1 :=
  master_run_C3_amended envC3 [10, 20, 30] 1 [[10], [20], [30]]
    rfl rfl (by decide) (by decide) (by decide)

/-- Environment of a manager whose `get_worker_count()` reports zero
workers. -/
def envC7 : RunEnv Int Int :=
  ⟨true, .ok (), some (.ok 0), DefaultDistributionStrategy.split_data,
    fun i => .ok i, fun ids => .ok (ids.map (fun _ => .ok 0))⟩

/-- Counterexample to claim C7: with zero reported workers, `run` does
fail fatally before any submission — but with a `RuntimeError` (the
generic handler wrapping the internal `ValueError`), not with a
`NoWorkersAvailable` error, which exists nowhere in the codebase. -/
theorem master_run_C7_counterexample :
    envC7.getWorkerCount = some (.ok 0) ∧
    Master.run envC7 [1, 2, 3] = .error .runtimeError ∧
    Master.run envC7 [1, 2, 3] ≠ .error .noWorkersAvailable ∧
    Master.runEvents envC7 [1, 2, 3] = [] :=
  ⟨rfl, by decide, by decide, by decide⟩

/-- Claim C7 (amended): if `get_worker_count()` returns a non-positive
count, `run` fails fatally before any task is submitted — raising a
`RuntimeError` (the `except Exception` handler re-wrapping the
`ValueError` raised for the invalid count), not a `NoWorkersAvailable`
error. -/
theorem master_run_C7_amended {α β : Type} (env : RunEnv α β)
    (data : List α) (k : Int) (hc : env.callable = true)
    (hs : env.serialize = .ok ())
    (hwc : env.getWorkerCount = some (.ok k)) (hk0 : k ≤ 0) :
    Master.run env data = .error .runtimeError ∧
    Master.runEvents env data = [] := by
  have hstep : workerCountStep env = .error .runtimeError := by
    unfold workerCountStep
    rw [hwc]
    change (if k ≤ 0 then (Except.error Exc.runtimeError : Except Exc Int)
      else .ok k) = _
    rw [if_pos hk0]
  constructor
  · simp [Master.run, hc, hs, hstep]
  · simp [Master.runEvents, hc, hs, hstep]

/-- Witness for the amended C7 at `envC7` (count 0). -/
theorem master_run_C7_amended_witness :
    Master.run envC7 [1, 2, 3] = .error .runtimeError ∧
    Master.runEvents envC7 [1, 2, 3] = [] :=
  master_run_C7_amended envC7 [1, 2, 3] 0 rfl rfl rfl (by decide)

/-!
## Claim C9: the method-name mismatch between `Master.run` and the
shipped cloud managers.

`Master.run` accesses `cloud_manager.get_worker_count()` (src/master.py
line 75) and `cloud_manager.get_results_for_ids(...)` (line 143), but
`BaseCloudManager` (src/cloud_manager.py lines 47-110) declares
`get_target_parallelism` / `get_all_results_for_ids`, and both shipped
managers implement exactly that interface.  The missing attribute makes
the worker-count step raise `AttributeError` before anything is
submitted, which the model renders as `getWorkerCount = none`.
-/

/-- Methods defined by `BaseCloudManager` (src/cloud_manager.py). -/
def BaseCloudManager.methodNames : List String :=
  ["get_target_parallelism", "submit_task", "get_all_results_for_ids",
   "shutdown"]

/-- Methods defined or inherited by `LocalCloudManager`
(src/cloud_manager.py lines 113-258). -/
def LocalCloudManager.methodNames : List String :=
  ["_ensure_pool_initialized", "get_target_parallelism", "submit_task",
   "get_all_results_for_ids", "shutdown"]

/-- Methods defined or inherited by `GlobusComputeCloudManager`
(src/globus_compute_manager.py). -/
def GlobusComputeCloudManager.methodNames : List String :=
  ["_initialize_executors", "_load_config_from_file",
   "get_target_parallelism", "submit_task", "get_all_results_for_ids",
   "shutdown_executors", "shutdown", "do_logout", "do_login_interactive",
   "select_endpoints_interactive", "save_config_to_file",
   "configure_endpoints_interactive_and_save"]

/-- A run environment over a shipped manager: the `get_worker_count`
attribute is absent, everything else arbitrary. -/
def shippedManagerEnv {α β : Type}
    (split : List α → Int → Except Exc (List (List α)))
    (submit : Nat → Except Exc Nat)
    (getRes : List Nat → Except Exc (List (Except Exc β))) : RunEnv α β :=
  ⟨true, .ok (), none, split, submit, getRes⟩

/-- Claim C9: neither `BaseCloudManager` nor the shipped managers define
`get_worker_count` or `get_results_for_ids` (they define
`get_target_parallelism` and `get_all_results_for_ids` instead), so for
every input and callable, serializable user function, `run` over a
shipped manager raises `AttributeError` at the worker-count step, with
no task ever submitted. -/
theorem master_run_C9 :
    ("get_worker_count" ∉ BaseCloudManager.methodNames ∧
      "get_worker_count" ∉ LocalCloudManager.methodNames ∧
      "get_worker_count" ∉ GlobusComputeCloudManager.methodNames ∧
      "get_results_for_ids" ∉ BaseCloudManager.methodNames ∧
      "get_results_for_ids" ∉ LocalCloudManager.methodNames ∧
      "get_results_for_ids" ∉ GlobusComputeCloudManager.methodNames ∧
      "get_target_parallelism" ∈ BaseCloudManager.methodNames ∧
      "get_all_results_for_ids" ∈ BaseCloudManager.methodNames) ∧
    ∀ (α β : Type) (split : List α → Int → Except Exc (List (List α)))
      (submit : Nat → Except Exc Nat)
      (getRes : List Nat → Except Exc (List (Except Exc β)))
      (data : List α),
      Master.run (shippedManagerEnv split submit getRes) data =
        .error .attributeError ∧
      Master.runEvents (shippedManagerEnv split submit getRes) data = [] := by
  constructor
  · exact ⟨by decide, by decide, by decide, by decide, by decide,
      by decide, by decide, by decide⟩
  · intro α β split submit getRes data
    constructor
    · simp [Master.run, shippedManagerEnv, workerCountStep]
    · simp [Master.runEvents, shippedManagerEnv, workerCountStep]
